import Mathlib

/-!
Verification of the snake-game engine in `src/main.cpp` of the
SDL3GameDemo repository.

The engine state (`SnakeContext`) and its operations are embedded as
executable Lean definitions, translated from the C source:

* the 162-byte bit-packed playfield `cells` is modelled as a natural
  number whose little-endian byte `k` consists of bits `[8*k, 8*k+8)`,
  exactly matching how the two-byte `SDL_memcpy` windows of
  `snake_cell_at` / `put_cell_at_` address the buffer on the
  little-endian reference platform;
* the `char` fields of the struct are modelled as `Int` (they are
  signed and go transiently negative in the wrap logic), the
  `unsigned` occupied-cell count as `Nat`;
* `SDL_rand(n)` is modelled by consuming one element from an explicit
  list of random samples, reduced `% n`; a placement loop that runs
  out of samples returns `none`;
* the fixed-step catch-up loop of `SDL_AppIterate` is modelled
  generically over the stepped state.
-/

set_option maxRecDepth 100000

namespace SnakeGame

/-- `SNAKE_GAME_WIDTH` (main.cpp:22): playfield width in cells. -/
def SNAKE_GAME_WIDTH : Nat := 24

/-- `SNAKE_GAME_HEIGHT` (main.cpp:23): playfield height in cells. -/
def SNAKE_GAME_HEIGHT : Nat := 18

/-- `SNAKE_MATRIX_SIZE` (main.cpp:24): total number of cells. -/
def SNAKE_MATRIX_SIZE : Nat := SNAKE_GAME_WIDTH * SNAKE_GAME_HEIGHT

/-- `SNAKE_CELL_MAX_BITS` (main.cpp:46): bits per stored cell. -/
def SNAKE_CELL_MAX_BITS : Nat := 3

/-- `THREE_BITS` (main.cpp:27): the 3-bit mask `0x7`. -/
def THREE_BITS : Nat := 7

/-- `STEP_RATE_IN_MILLISECONDS` (main.cpp:16). -/
def STEP_RATE_IN_MILLISECONDS : Nat := 125

/-- Size in bytes of the `cells` array of `SnakeContext`
(main.cpp:62): `(SNAKE_MATRIX_SIZE * SNAKE_CELL_MAX_BITS) / 8 = 162`. -/
def CELLS_BYTES : Nat := SNAKE_MATRIX_SIZE * SNAKE_CELL_MAX_BITS / 8

/-- Cell-state code `SNAKE_CELL_NOTHING` (main.cpp:38). -/
def SNAKE_CELL_NOTHING : Nat := 0

/-- Cell-state code `SNAKE_CELL_SRIGHT` (main.cpp:39): body facing right. -/
def SNAKE_CELL_SRIGHT : Nat := 1

/-- Cell-state code `SNAKE_CELL_SUP` (main.cpp:40): body facing up. -/
def SNAKE_CELL_SUP : Nat := 2

/-- Cell-state code `SNAKE_CELL_SLEFT` (main.cpp:41): body facing left. -/
def SNAKE_CELL_SLEFT : Nat := 3

/-- Cell-state code `SNAKE_CELL_SDOWN` (main.cpp:42): body facing down. -/
def SNAKE_CELL_SDOWN : Nat := 4

/-- Cell-state code `SNAKE_CELL_FOOD` (main.cpp:43). -/
def SNAKE_CELL_FOOD : Nat := 5

/-- Direction code `SNAKE_DIR_RIGHT` (main.cpp:51). -/
def SNAKE_DIR_RIGHT : Nat := 0

/-- Direction code `SNAKE_DIR_UP` (main.cpp:52). -/
def SNAKE_DIR_UP : Nat := 1

/-- Direction code `SNAKE_DIR_LEFT` (main.cpp:53). -/
def SNAKE_DIR_LEFT : Nat := 2

/-- Direction code `SNAKE_DIR_DOWN` (main.cpp:54). -/
def SNAKE_DIR_DOWN : Nat := 3

/-- The game-state struct `SnakeContext` (main.cpp:60-70).  `cells` is
the 162-byte bit-packed playfield, viewed as a natural number with
little-endian byte `k` occupying bits `[8*k, 8*k+8)`. -/
structure SnakeContext where
  cells : Nat
  head_xpos : Int
  head_ypos : Int
  tail_xpos : Int
  tail_ypos : Int
  next_dir : Nat
  inhibit_tail_step : Int
  occupied_cells : Nat
  deriving DecidableEq, Repr

/-- `SHIFT(x, y)` (main.cpp:28): bit offset of cell `(x, y)`. -/
def SHIFT (x y : Nat) : Nat := (x + y * SNAKE_GAME_WIDTH) * SNAKE_CELL_MAX_BITS

/-- `snake_cell_at` (main.cpp:84-90): memcpy the two bytes at offset
`shift / 8` into an `unsigned short` (little-endian), shift right by
`shift % 8` and mask to 3 bits. -/
def snake_cell_at (ctx : SnakeContext) (x y : Nat) : Nat :=
  let shift := SHIFT x y
  let range := (ctx.cells >>> (8 * (shift / 8))) &&& 65535
  (range >>> (shift % 8)) &&& THREE_BITS

/-- `put_cell_at_` (main.cpp:104-114): read the same two-byte window,
clear the 3-bit field with `range &= ~(THREE_BITS << adjust)` (a
32-bit complement, truncated on storing back into the 16-bit local),
or in the new code, and memcpy the two bytes back (bytes below the
window are kept, the 16-bit window is replaced, bytes above are
kept). -/
def put_cell_at_ (ctx : SnakeContext) (x y : Nat) (ct : Nat) : SnakeContext :=
  let shift := SHIFT x y
  let adjust := shift % 8
  let base := 8 * (shift / 8)
  let range0 := (ctx.cells >>> base) &&& 65535
  let range1 := (range0 &&& (4294967295 ^^^ (THREE_BITS <<< adjust))) % 65536
  let range2 := (range1 ||| ((ct &&& THREE_BITS) <<< adjust)) % 65536
  { ctx with cells :=
      (ctx.cells % 2 ^ base) ||| (range2 <<< base) |||
        ((ctx.cells >>> (base + 16)) <<< (base + 16)) }

/-- `are_cells_full_` (main.cpp:117-120). -/
def are_cells_full_ (ctx : SnakeContext) : Prop :=
  ctx.occupied_cells = SNAKE_GAME_WIDTH * SNAKE_GAME_HEIGHT

instance (ctx : SnakeContext) : Decidable (are_cells_full_ ctx) := by
  unfold are_cells_full_
  infer_instance

/-- `new_food_pos_` (main.cpp:125-137): keep drawing random `(x, y)`
pairs until an empty cell is found, then mark it `SNAKE_CELL_FOOD`.
`SDL_rand(n)` (uniform on `[0, n)`) is modelled by taking the next
sample from the explicit list and reducing it `% n`; `none` means the
sample list ran out before an empty cell was drawn. -/
def new_food_pos_ (ctx : SnakeContext) :
    List (Nat × Nat) → Option (SnakeContext × List (Nat × Nat))
  | [] => none
  | (u, v) :: rest =>
    let x := u % SNAKE_GAME_WIDTH
    let y := v % SNAKE_GAME_HEIGHT
    if snake_cell_at ctx x y = SNAKE_CELL_NOTHING then
      some (put_cell_at_ ctx x y SNAKE_CELL_FOOD, rest)
    else
      new_food_pos_ ctx rest

/-- The food loop of `snake_initialize` (main.cpp:154-158): `n` times,
place one food and increment the occupied-cell count. -/
def place_foods : Nat → SnakeContext → List (Nat × Nat) →
    Option (SnakeContext × List (Nat × Nat))
  | 0, ctx, rs => some (ctx, rs)
  | n + 1, ctx, rs =>
    match new_food_pos_ ctx rs with
    | none => none
    | some (ctx2, rs2) =>
      place_foods n { ctx2 with occupied_cells := ctx2.occupied_cells + 1 } rs2

/-- `snake_initialize` (main.cpp:142-159): zero the playfield, put
head = tail at the grid center facing right, set
`inhibit_tail_step = occupied_cells = 4`, decrement `occupied_cells`,
write one right-facing body cell at the tail, then place 4 food items
(each followed by an occupied-cell increment). -/
def snake_initialize (rs : List (Nat × Nat)) :
    Option (SnakeContext × List (Nat × Nat)) :=
  let ctx : SnakeContext :=
    { cells := 0
      head_xpos := (SNAKE_GAME_WIDTH : Int) / 2
      head_ypos := (SNAKE_GAME_HEIGHT : Int) / 2
      tail_xpos := (SNAKE_GAME_WIDTH : Int) / 2
      tail_ypos := (SNAKE_GAME_HEIGHT : Int) / 2
      next_dir := SNAKE_DIR_RIGHT
      inhibit_tail_step := 4
      occupied_cells := 4 - 1 }
  let ctx := put_cell_at_ ctx ctx.tail_xpos.toNat ctx.tail_ypos.toNat SNAKE_CELL_SRIGHT
  place_foods 4 ctx rs

/-- `snake_redir` (main.cpp:164-175): read the cell at the head to get
the current facing; refuse exactly a 180-degree turn, otherwise
overwrite the pending direction. -/
def snake_redir (ctx : SnakeContext) (dir : Nat) : SnakeContext :=
  let ct := snake_cell_at ctx ctx.head_xpos.toNat ctx.head_ypos.toNat
  if (dir = SNAKE_DIR_RIGHT ∧ ct ≠ SNAKE_CELL_SLEFT) ∨
     (dir = SNAKE_DIR_UP ∧ ct ≠ SNAKE_CELL_SDOWN) ∨
     (dir = SNAKE_DIR_LEFT ∧ ct ≠ SNAKE_CELL_SRIGHT) ∨
     (dir = SNAKE_DIR_DOWN ∧ ct ≠ SNAKE_CELL_SUP) then
    { ctx with next_dir := dir }
  else ctx

/-- The acceptance condition of `snake_redir` (main.cpp:168-171), as a
function of the requested direction and of the cell code stored at the
head position only. -/
def redir_allowed (dir ct : Nat) : Prop :=
  (dir = SNAKE_DIR_RIGHT ∧ ct ≠ SNAKE_CELL_SLEFT) ∨
  (dir = SNAKE_DIR_UP ∧ ct ≠ SNAKE_CELL_SDOWN) ∨
  (dir = SNAKE_DIR_LEFT ∧ ct ≠ SNAKE_CELL_SRIGHT) ∨
  (dir = SNAKE_DIR_DOWN ∧ ct ≠ SNAKE_CELL_SUP)

instance (dir ct : Nat) : Decidable (redir_allowed dir ct) := by
  unfold redir_allowed
  infer_instance

/-- `wrap_around_` (main.cpp:180-190). -/
def wrap_around_ (val mx : Int) : Int :=
  if val < 0 then mx - 1
  else if val > mx - 1 then 0
  else val

/-- The tail-advance block of `snake_step` (main.cpp:204-225): restore
the inhibit counter to 1, read the direction code stored at the tail,
clear that cell, move the tail one cell in that direction and wrap. -/
def tail_advance (ctx : SnakeContext) : SnakeContext :=
  let ctx := { ctx with inhibit_tail_step := ctx.inhibit_tail_step + 1 }
  let ct := snake_cell_at ctx ctx.tail_xpos.toNat ctx.tail_ypos.toNat
  let ctx := put_cell_at_ ctx ctx.tail_xpos.toNat ctx.tail_ypos.toNat SNAKE_CELL_NOTHING
  let ctx :=
    if ct = SNAKE_CELL_SRIGHT then { ctx with tail_xpos := ctx.tail_xpos + 1 }
    else if ct = SNAKE_CELL_SUP then { ctx with tail_ypos := ctx.tail_ypos - 1 }
    else if ct = SNAKE_CELL_SLEFT then { ctx with tail_xpos := ctx.tail_xpos - 1 }
    else if ct = SNAKE_CELL_SDOWN then { ctx with tail_ypos := ctx.tail_ypos + 1 }
    else ctx
  { ctx with
      tail_xpos := wrap_around_ ctx.tail_xpos (SNAKE_GAME_WIDTH : Int),
      tail_ypos := wrap_around_ ctx.tail_ypos (SNAKE_GAME_HEIGHT : Int) }

/-- Lines 202-226 of `snake_step`: decrement the inhibit counter; if
it reached 0, run the tail-advance block. -/
def tail_phase (ctx : SnakeContext) : SnakeContext :=
  let ctx := { ctx with inhibit_tail_step := ctx.inhibit_tail_step - 1 }
  if ctx.inhibit_tail_step = 0 then tail_advance ctx else ctx

/-- Lines 228-246 of `snake_step`: move the head one cell in the
pending direction and wrap. -/
def head_move (ctx : SnakeContext) : SnakeContext :=
  let ctx :=
    if ctx.next_dir = SNAKE_DIR_RIGHT then { ctx with head_xpos := ctx.head_xpos + 1 }
    else if ctx.next_dir = SNAKE_DIR_UP then { ctx with head_ypos := ctx.head_ypos - 1 }
    else if ctx.next_dir = SNAKE_DIR_LEFT then { ctx with head_xpos := ctx.head_xpos - 1 }
    else if ctx.next_dir = SNAKE_DIR_DOWN then { ctx with head_ypos := ctx.head_ypos + 1 }
    else ctx
  { ctx with
      head_xpos := wrap_around_ ctx.head_xpos (SNAKE_GAME_WIDTH : Int),
      head_ypos := wrap_around_ ctx.head_ypos (SNAKE_GAME_HEIGHT : Int) }

/-- The cell found at the new head position (main.cpp:248), i.e. after
the tail phase and the head move of the same invocation. -/
def new_head_cell (ctx : SnakeContext) : Nat :=
  let ctx2 := head_move (tail_phase ctx)
  snake_cell_at ctx2 ctx2.head_xpos.toNat ctx2.head_ypos.toNat

/-- Lines 254-255 of `snake_step`: after tail phase and head move,
write `dir_as_cell = next_dir + 1` at both the previous and the new
head position. -/
def body_writes (ctx : SnakeContext) : SnakeContext :=
  let dir_as_cell := ctx.next_dir + 1
  let ctx1 := tail_phase ctx
  let ctx2 := head_move ctx1
  let ctx3 := put_cell_at_ ctx2 ctx1.head_xpos.toNat ctx1.head_ypos.toNat dir_as_cell
  put_cell_at_ ctx3 ctx3.head_xpos.toNat ctx3.head_ypos.toNat dir_as_cell

/-- `snake_step` (main.cpp:195-267): tail phase, head move, collision
check (reset on body cell), body writes, food handling (reset on win,
otherwise spawn food, extend the tail hold, count the new cell). -/
def snake_step (ctx : SnakeContext) (rs : List (Nat × Nat)) :
    Option (SnakeContext × List (Nat × Nat)) :=
  let ct := new_head_cell ctx
  if ct ≠ SNAKE_CELL_NOTHING ∧ ct ≠ SNAKE_CELL_FOOD then
    snake_initialize rs
  else
    let ctx4 := body_writes ctx
    if ct = SNAKE_CELL_FOOD then
      if are_cells_full_ ctx4 then
        snake_initialize rs
      else
        match new_food_pos_ ctx4 rs with
        | none => none
        | some (ctx5, rs2) =>
          some ({ ctx5 with
                    inhibit_tail_step := ctx5.inhibit_tail_step + 1,
                    occupied_cells := ctx5.occupied_cells + 1 }, rs2)
    else
      some (ctx4, rs)

/-- The fixed-step catch-up loop of `SDL_AppIterate` (main.cpp:316-321),
generic in the stepped state: while `now - t ≥ 125`, run one step and
advance `t` by 125.  Returns the number of steps run, the final
last-step time, and the final state.  The `Uint64` tick values are
modelled as `Nat`; the driver maintains `t ≤ now`. -/
def catch_up {σ : Type} (f : σ → σ) (now t : Nat) (s : σ) : Nat × Nat × σ :=
  if h : STEP_RATE_IN_MILLISECONDS ≤ now - t then
    let r := catch_up f now (t + STEP_RATE_IN_MILLISECONDS) (f s)
    (r.1 + 1, r.2)
  else
    (0, t, s)
termination_by now - t
decreasing_by simp only [STEP_RATE_IN_MILLISECONDS] at h ⊢; omega

/-- Spec-side: the body-cell code of the facing opposite to a
direction (Right maps to the left-facing body cell, and so on). -/
def opposite_body_cell (dir : Nat) : Nat :=
  if dir = SNAKE_DIR_RIGHT then SNAKE_CELL_SLEFT
  else if dir = SNAKE_DIR_UP then SNAKE_CELL_SDOWN
  else if dir = SNAKE_DIR_LEFT then SNAKE_CELL_SRIGHT
  else SNAKE_CELL_SUP

/-- All in-bounds grid positions. -/
def inBoundsPos : Finset (Nat × Nat) :=
  Finset.range SNAKE_GAME_WIDTH ×ˢ Finset.range SNAKE_GAME_HEIGHT

/-- The in-bounds positions currently holding `SNAKE_CELL_FOOD`. -/
def foodCells (ctx : SnakeContext) : Finset (Nat × Nat) :=
  inBoundsPos.filter fun p => snake_cell_at ctx p.1 p.2 = SNAKE_CELL_FOOD

/-- Head and tail coordinates lie in `[0, 24) × [0, 18)`. -/
def coords_in_bounds (ctx : SnakeContext) : Prop :=
  0 ≤ ctx.head_xpos ∧ ctx.head_xpos < (SNAKE_GAME_WIDTH : Int) ∧
  0 ≤ ctx.head_ypos ∧ ctx.head_ypos < (SNAKE_GAME_HEIGHT : Int) ∧
  0 ≤ ctx.tail_xpos ∧ ctx.tail_xpos < (SNAKE_GAME_WIDTH : Int) ∧
  0 ≤ ctx.tail_ypos ∧ ctx.tail_ypos < (SNAKE_GAME_HEIGHT : Int)

instance (ctx : SnakeContext) : Decidable (coords_in_bounds ctx) := by
  unfold coords_in_bounds
  infer_instance

/-- A concrete random-sample stream whose first four draws are the
distinct empty cells (0,0), (1,0), (2,0), (3,0). -/
def rs0 : List (Nat × Nat) := [(0, 0), (1, 0), (2, 0), (3, 0)]

/-- An all-empty concrete context, used to build test states. -/
def ctx_empty : SnakeContext :=
  { cells := 0, head_xpos := 0, head_ypos := 0, tail_xpos := 0, tail_ypos := 0,
    next_dir := 0, inhibit_tail_step := 1, occupied_cells := 0 }

/-- The result of initializing with the stream `rs0`. -/
def init0pair : Option (SnakeContext × List (Nat × Nat)) := snake_initialize rs0

/-- The concrete state produced by `rs0`-initialization. -/
def init0 : SnakeContext := (init0pair.getD (ctx_empty, [])).1

/-- A concrete state one step away from a self-collision: body cells
at (12,9) and (13,9), head at (12,9) moving right, tail parked at
(0,0), inhibit counter 5. -/
def cctx : SnakeContext :=
  put_cell_at_ (put_cell_at_
    { cells := 0, head_xpos := 12, head_ypos := 9, tail_xpos := 0, tail_ypos := 0,
      next_dir := SNAKE_DIR_RIGHT, inhibit_tail_step := 5, occupied_cells := 7 }
    12 9 SNAKE_CELL_SRIGHT) 13 9 SNAKE_CELL_SRIGHT

/-- A concrete state one step away from eating food: body at (12,9)
where the head sits, food at (13,9), moving right. -/
def fctx : SnakeContext :=
  put_cell_at_ (put_cell_at_
    { cells := 0, head_xpos := 12, head_ypos := 9, tail_xpos := 12, tail_ypos := 9,
      next_dir := SNAKE_DIR_RIGHT, inhibit_tail_step := 5, occupied_cells := 7 }
    12 9 SNAKE_CELL_SRIGHT) 13 9 SNAKE_CELL_FOOD

/-- The concrete result of stepping `fctx` with the stream `rs0`. -/
def fstep : SnakeContext × List (Nat × Nat) :=
  (snake_step fctx rs0).getD (ctx_empty, [])

/-- Playfield classification maintained while initializing: a single
right-facing body cell at the grid center, some food cells, and
nothing else. -/
def cells_ok (ctx : SnakeContext) : Prop :=
  snake_cell_at ctx 12 9 = SNAKE_CELL_SRIGHT ∧
  ∀ x y, x < SNAKE_GAME_WIDTH → y < SNAKE_GAME_HEIGHT →
    snake_cell_at ctx x y = SNAKE_CELL_NOTHING ∨
    snake_cell_at ctx x y = SNAKE_CELL_FOOD ∨
    (snake_cell_at ctx x y = SNAKE_CELL_SRIGHT ∧ x = 12 ∧ y = 9)

theorem put_cell_at_head_xpos (ctx : SnakeContext) (x y ct : Nat) :
    (put_cell_at_ ctx x y ct).head_xpos = ctx.head_xpos := rfl

theorem put_cell_at_head_ypos (ctx : SnakeContext) (x y ct : Nat) :
    (put_cell_at_ ctx x y ct).head_ypos = ctx.head_ypos := rfl

theorem put_cell_at_tail_xpos (ctx : SnakeContext) (x y ct : Nat) :
    (put_cell_at_ ctx x y ct).tail_xpos = ctx.tail_xpos := rfl

theorem put_cell_at_tail_ypos (ctx : SnakeContext) (x y ct : Nat) :
    (put_cell_at_ ctx x y ct).tail_ypos = ctx.tail_ypos := rfl

theorem put_cell_at_next_dir (ctx : SnakeContext) (x y ct : Nat) :
    (put_cell_at_ ctx x y ct).next_dir = ctx.next_dir := rfl

theorem put_cell_at_inhibit (ctx : SnakeContext) (x y ct : Nat) :
    (put_cell_at_ ctx x y ct).inhibit_tail_step = ctx.inhibit_tail_step := rfl

theorem put_cell_at_occupied (ctx : SnakeContext) (x y ct : Nat) :
    (put_cell_at_ ctx x y ct).occupied_cells = ctx.occupied_cells := rfl

/-- `snake_cell_at` only depends on the packed buffer. -/
theorem snake_cell_at_congr {a b : SnakeContext} (h : a.cells = b.cells)
    (x y : Nat) : snake_cell_at a x y = snake_cell_at b x y := by
  simp [snake_cell_at, h]

/-- The two-byte window read of `snake_cell_at` extracts exactly the
3-bit field at bit offset `SHIFT x y` of the packed buffer. -/
theorem snake_cell_at_eq (ctx : SnakeContext) (x y : Nat) :
    snake_cell_at ctx x y = (ctx.cells >>> SHIFT x y) &&& THREE_BITS := by
  have h65535 : (65535 : Nat) = 2 ^ 16 - 1 := by norm_num
  have h7 : THREE_BITS = 2 ^ 3 - 1 := by norm_num [THREE_BITS]
  apply Nat.eq_of_testBit_eq
  intro t
  simp only [snake_cell_at, h65535, h7, Nat.testBit_and, Nat.testBit_shiftRight,
    Nat.testBit_two_pow_sub_one]
  by_cases ht : t < 3
  · have h16 : SHIFT x y % 8 + t < 16 := by
      have := Nat.mod_lt (SHIFT x y) (show 0 < 8 by norm_num)
      omega
    have hidx : 8 * (SHIFT x y / 8) + (SHIFT x y % 8 + t) = SHIFT x y + t := by
      omega
    rw [hidx]
    simp [decide_eq_true h16, decide_eq_true ht]
  · simp [decide_eq_false ht]

/-- Effect of `put_cell_at_` on the packed buffer, bit by bit: the
3-bit field at offset `SHIFT x y` is replaced by the low 3 bits of
`ct`, and every other bit of the buffer is unchanged. -/
theorem put_cells_testBit (ctx : SnakeContext) (x y ct u : Nat) :
    ((put_cell_at_ ctx x y ct).cells).testBit u =
      if SHIFT x y ≤ u ∧ u < SHIFT x y + 3 then ct.testBit (u - SHIFT x y)
      else ctx.cells.testBit u := by
  have h65535 : (65535 : Nat) = 2 ^ 16 - 1 := by norm_num
  have h65536 : (65536 : Nat) = 2 ^ 16 := by norm_num
  have h2p32 : (4294967295 : Nat) = 2 ^ 32 - 1 := by norm_num
  have h7 : THREE_BITS = 2 ^ 3 - 1 := by norm_num [THREE_BITS]
  simp only [put_cell_at_, h65535, h65536, h2p32, h7]
  set s := SHIFT x y with hs
  set a := s % 8 with hadj
  set b := 8 * (s / 8) with hb
  have ha : a < 8 := by omega
  have hsplit : b + a = s := by omega
  simp only [Nat.testBit_or, Nat.testBit_and, Nat.testBit_mod_two_pow,
    Nat.testBit_shiftLeft, Nat.testBit_shiftRight, Nat.testBit_xor,
    Nat.testBit_two_pow_sub_one, ge_iff_le]
  rcases Nat.lt_or_ge u b with h1 | h1
  · -- below the two-byte window, hence below the field
    rw [if_neg (by omega : ¬ (s ≤ u ∧ u < s + 3))]
    simp [decide_eq_true h1, decide_eq_false (by omega : ¬ b ≤ u),
      decide_eq_false (by omega : ¬ b + 16 ≤ u)]
  · rcases Nat.lt_or_ge u (b + 16) with h2 | h2
    · -- inside the two-byte window
      by_cases hf : s ≤ u ∧ u < s + 3
      · -- the addressed 3-bit field itself
        rw [if_pos hf]
        have e1 : u - b - a = u - s := by omega
        simp [decide_eq_false (by omega : ¬ u < b), decide_eq_true h1,
          decide_eq_true (by omega : u - b < 16),
          decide_eq_true (by omega : u - b < 32),
          decide_eq_true (by omega : a ≤ u - b),
          decide_eq_true (by omega : u - b - a < 3),
          decide_eq_true (by omega : u - s < 3),
          decide_eq_false (by omega : ¬ b + 16 ≤ u), e1]
      · rw [if_neg hf]
        rcases Nat.lt_or_ge (u - b) a with h3 | h3
        · -- window bits strictly below the field
          have e2 : b + (u - b) = u := by omega
          simp [decide_eq_false (by omega : ¬ u < b), decide_eq_true h1,
            decide_eq_true (by omega : u - b < 16),
            decide_eq_true (by omega : u - b < 32),
            decide_eq_false (by omega : ¬ a ≤ u - b),
            decide_eq_false (by omega : ¬ b + 16 ≤ u), e2]
        · -- window bits strictly above the field
          have e2 : b + (u - b) = u := by omega
          simp [decide_eq_false (by omega : ¬ u < b), decide_eq_true h1,
            decide_eq_true (by omega : u - b < 16),
            decide_eq_true (by omega : u - b < 32),
            decide_eq_true h3,
            decide_eq_false (by omega : ¬ u - b - a < 3),
            decide_eq_false (by omega : ¬ b + 16 ≤ u), e2]
    · -- above the two-byte window
      rw [if_neg (by omega : ¬ (s ≤ u ∧ u < s + 3))]
      have e3 : b + 16 + (u - (b + 16)) = u := by omega
      simp [decide_eq_false (by omega : ¬ u < b), decide_eq_true h1,
        decide_eq_false (by omega : ¬ u - b < 16),
        decide_eq_true h2, e3]

/-- Reading back the cell just written returns the written code. -/
theorem snake_cell_at_put_self (ctx : SnakeContext) (x y ct : Nat)
    (hct : ct < 8) :
    snake_cell_at (put_cell_at_ ctx x y ct) x y = ct := by
  have h7 : THREE_BITS = 2 ^ 3 - 1 := by norm_num [THREE_BITS]
  rw [snake_cell_at_eq]
  apply Nat.eq_of_testBit_eq
  intro t
  simp only [h7, Nat.testBit_and, Nat.testBit_shiftRight,
    Nat.testBit_two_pow_sub_one, put_cells_testBit]
  by_cases ht : t < 3
  · rw [if_pos (by omega : SHIFT x y ≤ SHIFT x y + t ∧ SHIFT x y + t < SHIFT x y + 3)]
    have e : SHIFT x y + t - SHIFT x y = t := by omega
    simp [e, decide_eq_true ht]
  · have hbit : ct.testBit t = false := by
      apply Nat.testBit_lt_two_pow
      calc ct < 2 ^ 3 := by omega
        _ ≤ 2 ^ t := Nat.pow_le_pow_right (by norm_num) (by omega)
    simp [decide_eq_false ht, hbit]

/-- Writing one cell leaves every cell with a different linear index
unchanged. -/
theorem snake_cell_at_put_other (ctx : SnakeContext) {x y x2 y2 : Nat}
    (ct : Nat)
    (hne : x2 + y2 * SNAKE_GAME_WIDTH ≠ x + y * SNAKE_GAME_WIDTH) :
    snake_cell_at (put_cell_at_ ctx x y ct) x2 y2 = snake_cell_at ctx x2 y2 := by
  rw [snake_cell_at_eq, snake_cell_at_eq]
  apply Nat.eq_of_testBit_eq
  intro t
  simp only [Nat.testBit_and, Nat.testBit_shiftRight, put_cells_testBit]
  by_cases ht : t < 3
  · rw [if_neg]
    simp only [SHIFT, SNAKE_CELL_MAX_BITS, SNAKE_GAME_WIDTH] at hne ⊢
    omega
  · have hbit : THREE_BITS.testBit t = false := by
      apply Nat.testBit_lt_two_pow
      calc THREE_BITS < 2 ^ 3 := by norm_num [THREE_BITS]
        _ ≤ 2 ^ t := Nat.pow_le_pow_right (by norm_num) (by omega)
    simp [hbit]

theorem wrap_around_mem (v mx : Int) (h : 1 ≤ mx) :
    0 ≤ wrap_around_ v mx ∧ wrap_around_ v mx < mx := by
  unfold wrap_around_
  split
  · omega
  · split <;> omega

theorem tail_advance_head_xpos (ctx : SnakeContext) :
    (tail_advance ctx).head_xpos = ctx.head_xpos := by
  simp only [tail_advance, put_cell_at_head_xpos, put_cell_at_head_ypos,
    put_cell_at_next_dir, put_cell_at_occupied, put_cell_at_inhibit]
  repeat' split
  all_goals rfl

theorem tail_advance_head_ypos (ctx : SnakeContext) :
    (tail_advance ctx).head_ypos = ctx.head_ypos := by
  simp only [tail_advance, put_cell_at_head_xpos, put_cell_at_head_ypos,
    put_cell_at_next_dir, put_cell_at_occupied, put_cell_at_inhibit]
  repeat' split
  all_goals rfl

theorem tail_advance_next_dir (ctx : SnakeContext) :
    (tail_advance ctx).next_dir = ctx.next_dir := by
  simp only [tail_advance, put_cell_at_head_xpos, put_cell_at_head_ypos,
    put_cell_at_next_dir, put_cell_at_occupied, put_cell_at_inhibit]
  repeat' split
  all_goals rfl

theorem tail_advance_occupied (ctx : SnakeContext) :
    (tail_advance ctx).occupied_cells = ctx.occupied_cells := by
  simp only [tail_advance, put_cell_at_head_xpos, put_cell_at_head_ypos,
    put_cell_at_next_dir, put_cell_at_occupied, put_cell_at_inhibit]
  repeat' split
  all_goals rfl

theorem tail_advance_inhibit (ctx : SnakeContext) :
    (tail_advance ctx).inhibit_tail_step = ctx.inhibit_tail_step + 1 := by
  simp only [tail_advance, put_cell_at_head_xpos, put_cell_at_head_ypos,
    put_cell_at_next_dir, put_cell_at_occupied, put_cell_at_inhibit]
  repeat' split
  all_goals rfl

theorem tail_advance_tail_xpos (ctx : SnakeContext) :
    ∃ v : Int, (tail_advance ctx).tail_xpos = wrap_around_ v (SNAKE_GAME_WIDTH : Int) := by
  simp only [tail_advance]
  exact ⟨_, rfl⟩

theorem tail_advance_tail_ypos (ctx : SnakeContext) :
    ∃ v : Int, (tail_advance ctx).tail_ypos = wrap_around_ v (SNAKE_GAME_HEIGHT : Int) := by
  simp only [tail_advance]
  exact ⟨_, rfl⟩

/-- When the decremented counter reaches 0 the tail-advance block runs. -/
theorem tail_phase_of_one (ctx : SnakeContext) (h : ctx.inhibit_tail_step = 1) :
    tail_phase ctx = tail_advance { ctx with inhibit_tail_step := 0 } := by
  unfold tail_phase
  rw [if_pos (by simp [h])]
  congr 1
  simp [h]

/-- When the decremented counter is nonzero only the counter changes. -/
theorem tail_phase_of_ne (ctx : SnakeContext) (h : ctx.inhibit_tail_step ≠ 1) :
    tail_phase ctx = { ctx with inhibit_tail_step := ctx.inhibit_tail_step - 1 } := by
  unfold tail_phase
  rw [if_neg (by simp; omega)]

theorem tail_phase_head_xpos (ctx : SnakeContext) :
    (tail_phase ctx).head_xpos = ctx.head_xpos := by
  by_cases h : ctx.inhibit_tail_step = 1
  · rw [tail_phase_of_one ctx h, tail_advance_head_xpos]
  · rw [tail_phase_of_ne ctx h]

theorem tail_phase_head_ypos (ctx : SnakeContext) :
    (tail_phase ctx).head_ypos = ctx.head_ypos := by
  by_cases h : ctx.inhibit_tail_step = 1
  · rw [tail_phase_of_one ctx h, tail_advance_head_ypos]
  · rw [tail_phase_of_ne ctx h]

theorem tail_phase_next_dir (ctx : SnakeContext) :
    (tail_phase ctx).next_dir = ctx.next_dir := by
  by_cases h : ctx.inhibit_tail_step = 1
  · rw [tail_phase_of_one ctx h, tail_advance_next_dir]
  · rw [tail_phase_of_ne ctx h]

theorem tail_phase_occupied (ctx : SnakeContext) :
    (tail_phase ctx).occupied_cells = ctx.occupied_cells := by
  by_cases h : ctx.inhibit_tail_step = 1
  · rw [tail_phase_of_one ctx h, tail_advance_occupied]
  · rw [tail_phase_of_ne ctx h]

theorem tail_phase_inhibit (ctx : SnakeContext) :
    (tail_phase ctx).inhibit_tail_step =
      if ctx.inhibit_tail_step = 1 then 1 else ctx.inhibit_tail_step - 1 := by
  by_cases h : ctx.inhibit_tail_step = 1
  · rw [tail_phase_of_one ctx h, tail_advance_inhibit, if_pos h]
    simp
  · rw [tail_phase_of_ne ctx h, if_neg h]

theorem head_move_cells (ctx : SnakeContext) :
    (head_move ctx).cells = ctx.cells := by
  simp only [head_move]
  repeat' split
  all_goals rfl

theorem head_move_tail_xpos (ctx : SnakeContext) :
    (head_move ctx).tail_xpos = ctx.tail_xpos := by
  simp only [head_move]
  repeat' split
  all_goals rfl

theorem head_move_tail_ypos (ctx : SnakeContext) :
    (head_move ctx).tail_ypos = ctx.tail_ypos := by
  simp only [head_move]
  repeat' split
  all_goals rfl

theorem head_move_next_dir (ctx : SnakeContext) :
    (head_move ctx).next_dir = ctx.next_dir := by
  simp only [head_move]
  repeat' split
  all_goals rfl

theorem head_move_occupied (ctx : SnakeContext) :
    (head_move ctx).occupied_cells = ctx.occupied_cells := by
  simp only [head_move]
  repeat' split
  all_goals rfl

theorem head_move_inhibit (ctx : SnakeContext) :
    (head_move ctx).inhibit_tail_step = ctx.inhibit_tail_step := by
  simp only [head_move]
  repeat' split
  all_goals rfl

theorem head_move_head_xpos_wrap (ctx : SnakeContext) :
    ∃ v : Int, (head_move ctx).head_xpos = wrap_around_ v (SNAKE_GAME_WIDTH : Int) := by
  simp only [head_move]
  exact ⟨_, rfl⟩

theorem head_move_head_ypos_wrap (ctx : SnakeContext) :
    ∃ v : Int, (head_move ctx).head_ypos = wrap_around_ v (SNAKE_GAME_HEIGHT : Int) := by
  simp only [head_move]
  exact ⟨_, rfl⟩

/-- With pending direction Right, the head move increments `x`. -/
theorem head_move_right (ctx : SnakeContext) (h : ctx.next_dir = SNAKE_DIR_RIGHT) :
    (head_move ctx).head_xpos = wrap_around_ (ctx.head_xpos + 1) (SNAKE_GAME_WIDTH : Int) ∧
    (head_move ctx).head_ypos = wrap_around_ ctx.head_ypos (SNAKE_GAME_HEIGHT : Int) := by
  unfold head_move
  rw [if_pos h]
  exact ⟨rfl, rfl⟩

theorem body_writes_head_xpos (ctx : SnakeContext) :
    (body_writes ctx).head_xpos = (head_move (tail_phase ctx)).head_xpos := rfl

theorem body_writes_head_ypos (ctx : SnakeContext) :
    (body_writes ctx).head_ypos = (head_move (tail_phase ctx)).head_ypos := rfl

theorem body_writes_tail_xpos (ctx : SnakeContext) :
    (body_writes ctx).tail_xpos = (tail_phase ctx).tail_xpos := by
  show (head_move (tail_phase ctx)).tail_xpos = _
  exact head_move_tail_xpos _

theorem body_writes_tail_ypos (ctx : SnakeContext) :
    (body_writes ctx).tail_ypos = (tail_phase ctx).tail_ypos := by
  show (head_move (tail_phase ctx)).tail_ypos = _
  exact head_move_tail_ypos _

theorem body_writes_next_dir (ctx : SnakeContext) :
    (body_writes ctx).next_dir = ctx.next_dir := by
  show (head_move (tail_phase ctx)).next_dir = _
  rw [head_move_next_dir, tail_phase_next_dir]

theorem body_writes_occupied (ctx : SnakeContext) :
    (body_writes ctx).occupied_cells = ctx.occupied_cells := by
  show (head_move (tail_phase ctx)).occupied_cells = _
  rw [head_move_occupied, tail_phase_occupied]

theorem body_writes_inhibit (ctx : SnakeContext) :
    (body_writes ctx).inhibit_tail_step = (tail_phase ctx).inhibit_tail_step := by
  show (head_move (tail_phase ctx)).inhibit_tail_step = _
  exact head_move_inhibit _

/-- Any successful food placement marks a previously empty in-bounds
cell as food, and does nothing else. -/
theorem new_food_spec (ctx : SnakeContext) :
    ∀ rs p, new_food_pos_ ctx rs = some p →
      ∃ fx fy, fx < SNAKE_GAME_WIDTH ∧ fy < SNAKE_GAME_HEIGHT ∧
        snake_cell_at ctx fx fy = SNAKE_CELL_NOTHING ∧
        p.1 = put_cell_at_ ctx fx fy SNAKE_CELL_FOOD := by
  intro rs
  induction rs with
  | nil => intro p h; simp [new_food_pos_] at h
  | cons hd tl ih =>
    intro p h
    rcases hd with ⟨u, v⟩
    simp only [new_food_pos_] at h
    split at h
    · rename_i hc
      refine ⟨u % SNAKE_GAME_WIDTH, v % SNAKE_GAME_HEIGHT,
        Nat.mod_lt _ (by norm_num [SNAKE_GAME_WIDTH]),
        Nat.mod_lt _ (by norm_num [SNAKE_GAME_HEIGHT]), hc, ?_⟩
      cases h
      rfl
    · exact ih p h

theorem cells_ok_congr {a b : SnakeContext} (h : a.cells = b.cells)
    (ha : cells_ok a) : cells_ok b := by
  obtain ⟨h1, h2⟩ := ha
  refine ⟨?_, ?_⟩
  · rw [← snake_cell_at_congr h]; exact h1
  · intro x y hx hy
    rw [← snake_cell_at_congr h]
    exact h2 x y hx hy

theorem foodCells_congr {a b : SnakeContext} (h : a.cells = b.cells) :
    foodCells a = foodCells b := by
  unfold foodCells
  apply Finset.filter_congr
  intro q _
  rw [snake_cell_at_congr h]

/-- Marking an in-bounds cell as food inserts exactly that position
into the food set. -/
theorem foodCells_put (ctx : SnakeContext) {fx fy : Nat}
    (hx : fx < SNAKE_GAME_WIDTH) (hy : fy < SNAKE_GAME_HEIGHT) :
    foodCells (put_cell_at_ ctx fx fy SNAKE_CELL_FOOD) =
      insert (fx, fy) (foodCells ctx) := by
  have hread : snake_cell_at (put_cell_at_ ctx fx fy SNAKE_CELL_FOOD) fx fy
      = SNAKE_CELL_FOOD :=
    snake_cell_at_put_self ctx fx fy SNAKE_CELL_FOOD (by norm_num [SNAKE_CELL_FOOD])
  ext q
  simp only [foodCells, Finset.mem_filter, Finset.mem_insert, inBoundsPos,
    Finset.mem_product, Finset.mem_range]
  constructor
  · rintro ⟨⟨hqx, hqy⟩, hcell⟩
    rcases eq_or_ne q (fx, fy) with he | hne
    · exact Or.inl he
    · refine Or.inr ⟨⟨hqx, hqy⟩, ?_⟩
      rw [← hcell]
      refine (snake_cell_at_put_other ctx SNAKE_CELL_FOOD ?_).symm
      have hcoord : q.1 ≠ fx ∨ q.2 ≠ fy := by
        by_cases h1 : q.1 = fx
        · exact Or.inr fun h2 => hne (Prod.ext_iff.mpr ⟨h1, h2⟩)
        · exact Or.inl h1
      rcases hcoord with hc | hc <;> simp only [SNAKE_GAME_WIDTH] at * <;> omega
  · rintro (he | ⟨⟨hqx, hqy⟩, hcell⟩)
    · subst he
      exact ⟨⟨hx, hy⟩, hread⟩
    · rcases eq_or_ne q (fx, fy) with he | hne
      · subst he
        exact ⟨⟨hqx, hqy⟩, hread⟩
      · refine ⟨⟨hqx, hqy⟩, ?_⟩
        rw [snake_cell_at_put_other ctx SNAKE_CELL_FOOD ?_]
        · exact hcell
        · have hcoord : q.1 ≠ fx ∨ q.2 ≠ fy := by
            by_cases h1 : q.1 = fx
            · exact Or.inr fun h2 => hne (Prod.ext_iff.mpr ⟨h1, h2⟩)
            · exact Or.inl h1
          rcases hcoord with hc | hc <;> simp only [SNAKE_GAME_WIDTH] at * <;> omega

/-- Placing food on an empty in-bounds cell preserves the playfield
classification. -/
theorem cells_ok_put_food (ctx : SnakeContext) {fx fy : Nat}
    (hx : fx < SNAKE_GAME_WIDTH) (hy : fy < SNAKE_GAME_HEIGHT)
    (hempty : snake_cell_at ctx fx fy = SNAKE_CELL_NOTHING)
    (hok : cells_ok ctx) :
    cells_ok (put_cell_at_ ctx fx fy SNAKE_CELL_FOOD) := by
  obtain ⟨hcen, hclass⟩ := hok
  have hne_cen : 12 + 9 * SNAKE_GAME_WIDTH ≠ fx + fy * SNAKE_GAME_WIDTH := by
    intro hEq
    have hee : fx = 12 ∧ fy = 9 := by
      simp only [SNAKE_GAME_WIDTH] at *
      omega
    rcases hee with ⟨e1, e2⟩
    subst e1; subst e2
    rw [hempty] at hcen
    norm_num [SNAKE_CELL_NOTHING, SNAKE_CELL_SRIGHT] at hcen
  constructor
  · rw [snake_cell_at_put_other ctx SNAKE_CELL_FOOD hne_cen]
    exact hcen
  · intro x y hxb hyb
    by_cases hq : x + y * SNAKE_GAME_WIDTH = fx + fy * SNAKE_GAME_WIDTH
    · have hee : x = fx ∧ y = fy := by
        simp only [SNAKE_GAME_WIDTH] at *
        omega
      rcases hee with ⟨e1, e2⟩
      subst e1; subst e2
      right; left
      exact snake_cell_at_put_self ctx x y SNAKE_CELL_FOOD (by norm_num [SNAKE_CELL_FOOD])
    · rw [snake_cell_at_put_other ctx SNAKE_CELL_FOOD hq]
      exact hclass x y hxb hyb

/-- Running the food loop `n` times from a classified state: the
classification is preserved, the food count grows by exactly `n`, the
occupied count grows by exactly `n`, and no other field changes. -/
theorem place_foods_spec :
    ∀ n ctx rs ctx2 rs2, place_foods n ctx rs = some (ctx2, rs2) →
      cells_ok ctx →
      cells_ok ctx2 ∧
      (foodCells ctx2).card = (foodCells ctx).card + n ∧
      ctx2.head_xpos = ctx.head_xpos ∧ ctx2.head_ypos = ctx.head_ypos ∧
      ctx2.tail_xpos = ctx.tail_xpos ∧ ctx2.tail_ypos = ctx.tail_ypos ∧
      ctx2.next_dir = ctx.next_dir ∧
      ctx2.inhibit_tail_step = ctx.inhibit_tail_step ∧
      ctx2.occupied_cells = ctx.occupied_cells + n := by
  intro n
  induction n with
  | zero =>
    intro ctx rs ctx2 rs2 h hok
    simp only [place_foods, Option.some.injEq, Prod.mk.injEq] at h
    rcases h with ⟨h1, _⟩
    subst h1
    simp [hok]
  | succ n ih =>
    intro ctx rs ctx2 rs2 h hok
    simp only [place_foods] at h
    rcases hnf : new_food_pos_ ctx rs with _ | p
    · rw [hnf] at h; exact absurd h (by simp)
    · rw [hnf] at h
      rcases p with ⟨c2, r2⟩
      obtain ⟨fx, fy, hx, hy, hempty, hput⟩ := new_food_spec ctx rs _ hnf
      simp only at hput
      obtain ⟨ih1, ih2, ih3, ih4, ih5, ih6, ih7, ih8, ih9⟩ :=
        ih { c2 with occupied_cells := c2.occupied_cells + 1 } r2 ctx2 rs2 h
          (cells_ok_congr
            (show (put_cell_at_ ctx fx fy SNAKE_CELL_FOOD).cells =
                ({ c2 with occupied_cells := c2.occupied_cells + 1 } : SnakeContext).cells
              from by rw [hput])
            (cells_ok_put_food ctx hx hy hempty hok))
      have hcards : foodCells { c2 with occupied_cells := c2.occupied_cells + 1 }
          = insert (fx, fy) (foodCells ctx) := by
        rw [foodCells_congr
          (show ({ c2 with occupied_cells := c2.occupied_cells + 1 } : SnakeContext).cells =
              (put_cell_at_ ctx fx fy SNAKE_CELL_FOOD).cells
            from by rw [hput])]
        exact foodCells_put ctx hx hy
      have hnotmem : (fx, fy) ∉ foodCells ctx := by
        intro hmem
        simp only [foodCells, Finset.mem_filter] at hmem
        rw [hempty] at hmem
        norm_num [SNAKE_CELL_NOTHING, SNAKE_CELL_FOOD] at hmem
      refine ⟨ih1, ?_, ?_, ?_, ?_, ?_, ?_, ?_, ?_⟩
      · rw [ih2, hcards, Finset.card_insert_of_not_mem hnotmem]
        omega
      · rw [ih3]; simp [hput, put_cell_at_head_xpos]
      · rw [ih4]; simp [hput, put_cell_at_head_ypos]
      · rw [ih5]; simp [hput, put_cell_at_tail_xpos]
      · rw [ih6]; simp [hput, put_cell_at_tail_ypos]
      · rw [ih7]; simp [hput, put_cell_at_next_dir]
      · rw [ih8]; simp [hput, put_cell_at_inhibit]
      · rw [ih9]; simp [hput, put_cell_at_occupied]; omega

/-- Reading any cell of an all-zero buffer yields `SNAKE_CELL_NOTHING`. -/
theorem snake_cell_at_zero {c : SnakeContext} (h0 : c.cells = 0) (x y : Nat) :
    snake_cell_at c x y = SNAKE_CELL_NOTHING := by
  rw [snake_cell_at_eq, h0]
  simp [SNAKE_CELL_NOTHING]

/-- After writing the single center body cell on a zeroed board, the
board is classified and has no food. -/
theorem base_board_spec (c : SnakeContext) (h0 : c.cells = 0) :
    cells_ok (put_cell_at_ c 12 9 SNAKE_CELL_SRIGHT) ∧
    foodCells (put_cell_at_ c 12 9 SNAKE_CELL_SRIGHT) = ∅ := by
  have hread : snake_cell_at (put_cell_at_ c 12 9 SNAKE_CELL_SRIGHT) 12 9
      = SNAKE_CELL_SRIGHT :=
    snake_cell_at_put_self c 12 9 SNAKE_CELL_SRIGHT (by norm_num [SNAKE_CELL_SRIGHT])
  have hother : ∀ x y : Nat, x + y * SNAKE_GAME_WIDTH ≠ 12 + 9 * SNAKE_GAME_WIDTH →
      snake_cell_at (put_cell_at_ c 12 9 SNAKE_CELL_SRIGHT) x y = SNAKE_CELL_NOTHING := by
    intro x y hne
    rw [snake_cell_at_put_other c SNAKE_CELL_SRIGHT hne]
    exact snake_cell_at_zero h0 x y
  refine ⟨⟨hread, ?_⟩, ?_⟩
  · intro x y hx hy
    by_cases hq : x + y * SNAKE_GAME_WIDTH = 12 + 9 * SNAKE_GAME_WIDTH
    · have hee : x = 12 ∧ y = 9 := by
        simp only [SNAKE_GAME_WIDTH] at *
        omega
      rcases hee with ⟨e1, e2⟩
      subst e1; subst e2
      exact Or.inr (Or.inr ⟨hread, rfl, rfl⟩)
    · exact Or.inl (hother x y hq)
  · ext q
    simp only [foodCells, Finset.mem_filter, Finset.not_mem_empty, iff_false,
      not_and, inBoundsPos, Finset.mem_product, Finset.mem_range]
    rintro ⟨hq1, hq2⟩
    by_cases hq : q.1 + q.2 * SNAKE_GAME_WIDTH = 12 + 9 * SNAKE_GAME_WIDTH
    · have hee : q.1 = 12 ∧ q.2 = 9 := by
        simp only [SNAKE_GAME_WIDTH] at hq1 hq2 hq
        omega
      have : snake_cell_at (put_cell_at_ c 12 9 SNAKE_CELL_SRIGHT) q.1 q.2
          = SNAKE_CELL_SRIGHT := by
        rw [hee.1, hee.2]; exact hread
      rw [this]
      norm_num [SNAKE_CELL_SRIGHT, SNAKE_CELL_FOOD]
    · rw [hother q.1 q.2 hq]
      norm_num [SNAKE_CELL_NOTHING, SNAKE_CELL_FOOD]

/-- Characterization of a successful initialization: head = tail =
grid center, pending direction Right, inhibit counter 4, 7 occupied
cells, a classified board holding exactly 4 food cells. -/
theorem initialize_spec {rs : List (Nat × Nat)} {ctx : SnakeContext}
    {rs2 : List (Nat × Nat)} (h : snake_initialize rs = some (ctx, rs2)) :
    ctx.head_xpos = 12 ∧ ctx.head_ypos = 9 ∧
    ctx.tail_xpos = 12 ∧ ctx.tail_ypos = 9 ∧
    ctx.next_dir = SNAKE_DIR_RIGHT ∧
    ctx.inhibit_tail_step = 4 ∧
    ctx.occupied_cells = 7 ∧
    cells_ok ctx ∧ (foodCells ctx).card = 4 := by
  have h2 : place_foods 4
      (put_cell_at_
        { cells := 0, head_xpos := 12, head_ypos := 9, tail_xpos := 12,
          tail_ypos := 9, next_dir := SNAKE_DIR_RIGHT, inhibit_tail_step := 4,
          occupied_cells := 3 } 12 9 SNAKE_CELL_SRIGHT) rs = some (ctx, rs2) := h
  obtain ⟨hbase_ok, hbase_food⟩ := base_board_spec
    { cells := 0, head_xpos := 12, head_ypos := 9, tail_xpos := 12,
      tail_ypos := 9, next_dir := SNAKE_DIR_RIGHT, inhibit_tail_step := 4,
      occupied_cells := 3 } rfl
  obtain ⟨hok, hcard, hhx, hhy, htx, hty, hdir, hinh, hocc⟩ :=
    place_foods_spec 4 _ rs ctx rs2 h2 hbase_ok
  rw [put_cell_at_head_xpos] at hhx
  rw [put_cell_at_head_ypos] at hhy
  rw [put_cell_at_tail_xpos] at htx
  rw [put_cell_at_tail_ypos] at hty
  rw [put_cell_at_next_dir] at hdir
  rw [put_cell_at_inhibit] at hinh
  rw [put_cell_at_occupied] at hocc
  rw [hbase_food] at hcard
  exact ⟨hhx, hhy, htx, hty, hdir, hinh, hocc, hok, by simpa using hcard⟩

/-- A step that finds a body cell at the new head position resets. -/
theorem snake_step_collision (ctx : SnakeContext) (rs : List (Nat × Nat))
    (h : new_head_cell ctx ≠ SNAKE_CELL_NOTHING ∧ new_head_cell ctx ≠ SNAKE_CELL_FOOD) :
    snake_step ctx rs = snake_initialize rs := by
  simp only [snake_step]
  rw [if_pos h]

/-- A step that eats food on a full board resets. -/
theorem snake_step_win (ctx : SnakeContext) (rs : List (Nat × Nat))
    (h5 : new_head_cell ctx = SNAKE_CELL_FOOD)
    (hfull : ctx.occupied_cells = SNAKE_GAME_WIDTH * SNAKE_GAME_HEIGHT) :
    snake_step ctx rs = snake_initialize rs := by
  simp only [snake_step]
  rw [if_neg (by simp [h5, SNAKE_CELL_FOOD, SNAKE_CELL_NOTHING]), if_pos h5,
    if_pos (show are_cells_full_ (body_writes ctx) from by
      rw [are_cells_full_, body_writes_occupied]; exact hfull)]

/-- A step onto an empty cell just performs the two body writes. -/
theorem snake_step_empty (ctx : SnakeContext) (rs : List (Nat × Nat))
    (h0 : new_head_cell ctx = SNAKE_CELL_NOTHING) :
    snake_step ctx rs = some (body_writes ctx, rs) := by
  simp only [snake_step]
  rw [if_neg (by simp [h0, SNAKE_CELL_NOTHING, SNAKE_CELL_FOOD]),
    if_neg (by simp [h0, SNAKE_CELL_NOTHING, SNAKE_CELL_FOOD])]

/-- A step onto food on a non-full board: body writes, then one food
placement, then the inhibit and occupied increments. -/
theorem snake_step_food (ctx : SnakeContext) (rs : List (Nat × Nat))
    {c5 : SnakeContext} {rs2 : List (Nat × Nat)}
    (h5 : new_head_cell ctx = SNAKE_CELL_FOOD)
    (hnotfull : ctx.occupied_cells ≠ SNAKE_GAME_WIDTH * SNAKE_GAME_HEIGHT)
    (hnf : new_food_pos_ (body_writes ctx) rs = some (c5, rs2)) :
    snake_step ctx rs =
      some ({ c5 with inhibit_tail_step := c5.inhibit_tail_step + 1,
                      occupied_cells := c5.occupied_cells + 1 }, rs2) := by
  simp only [snake_step]
  rw [if_neg (by simp [h5, SNAKE_CELL_FOOD, SNAKE_CELL_NOTHING]), if_pos h5,
    if_neg (show ¬ are_cells_full_ (body_writes ctx) from by
      rw [are_cells_full_, body_writes_occupied]; exact hnotfull),
    hnf]

/-- A food step whose placement loop exhausts the sample stream
produces no result in this model. -/
theorem snake_step_food_none (ctx : SnakeContext) (rs : List (Nat × Nat))
    (h5 : new_head_cell ctx = SNAKE_CELL_FOOD)
    (hnotfull : ctx.occupied_cells ≠ SNAKE_GAME_WIDTH * SNAKE_GAME_HEIGHT)
    (hnf : new_food_pos_ (body_writes ctx) rs = none) :
    snake_step ctx rs = none := by
  simp only [snake_step]
  rw [if_neg (by simp [h5, SNAKE_CELL_FOOD, SNAKE_CELL_NOTHING]), if_pos h5,
    if_neg (show ¬ are_cells_full_ (body_writes ctx) from by
      rw [are_cells_full_, body_writes_occupied]; exact hnotfull),
    hnf]

/-- Fields of the state returned by a successful food placement. -/
theorem new_food_fields {ctx : SnakeContext} {rs : List (Nat × Nat)}
    {p : SnakeContext × List (Nat × Nat)} (h : new_food_pos_ ctx rs = some p) :
    p.1.head_xpos = ctx.head_xpos ∧ p.1.head_ypos = ctx.head_ypos ∧
    p.1.tail_xpos = ctx.tail_xpos ∧ p.1.tail_ypos = ctx.tail_ypos ∧
    p.1.next_dir = ctx.next_dir ∧
    p.1.inhibit_tail_step = ctx.inhibit_tail_step ∧
    p.1.occupied_cells = ctx.occupied_cells := by
  obtain ⟨fx, fy, _, _, _, hput⟩ := new_food_spec ctx rs p h
  rw [hput]
  exact ⟨rfl, rfl, rfl, rfl, rfl, rfl, rfl⟩

/-- The tail phase keeps the tail coordinates in bounds. -/
theorem tail_phase_coords (ctx : SnakeContext) (h : coords_in_bounds ctx) :
    0 ≤ (tail_phase ctx).tail_xpos ∧
    (tail_phase ctx).tail_xpos < (SNAKE_GAME_WIDTH : Int) ∧
    0 ≤ (tail_phase ctx).tail_ypos ∧
    (tail_phase ctx).tail_ypos < (SNAKE_GAME_HEIGHT : Int) := by
  obtain ⟨_, _, _, _, h5, h6, h7, h8⟩ := h
  by_cases hi : ctx.inhibit_tail_step = 1
  · rw [tail_phase_of_one ctx hi]
    obtain ⟨vx, hvx⟩ := tail_advance_tail_xpos { ctx with inhibit_tail_step := 0 }
    obtain ⟨vy, hvy⟩ := tail_advance_tail_ypos { ctx with inhibit_tail_step := 0 }
    rw [hvx, hvy]
    have hx := wrap_around_mem vx (SNAKE_GAME_WIDTH : Int)
      (by norm_num [SNAKE_GAME_WIDTH])
    have hy := wrap_around_mem vy (SNAKE_GAME_HEIGHT : Int)
      (by norm_num [SNAKE_GAME_HEIGHT])
    exact ⟨hx.1, hx.2, hy.1, hy.2⟩
  · rw [tail_phase_of_ne ctx hi]
    exact ⟨h5, h6, h7, h8⟩

/-- The body-writes state (tail phase, head move, two cell writes) has
in-bounds head and tail whenever the input does. -/
theorem body_writes_coords (ctx : SnakeContext) (h : coords_in_bounds ctx) :
    coords_in_bounds (body_writes ctx) := by
  obtain ⟨hx1, hx2, hy1, hy2⟩ := tail_phase_coords ctx h
  obtain ⟨vx, hvx⟩ := head_move_head_xpos_wrap (tail_phase ctx)
  obtain ⟨vy, hvy⟩ := head_move_head_ypos_wrap (tail_phase ctx)
  have hwx := wrap_around_mem vx (SNAKE_GAME_WIDTH : Int)
    (by norm_num [SNAKE_GAME_WIDTH])
  have hwy := wrap_around_mem vy (SNAKE_GAME_HEIGHT : Int)
    (by norm_num [SNAKE_GAME_HEIGHT])
  refine ⟨?_, ?_, ?_, ?_, ?_, ?_, ?_, ?_⟩
  · rw [body_writes_head_xpos, hvx]; exact hwx.1
  · rw [body_writes_head_xpos, hvx]; exact hwx.2
  · rw [body_writes_head_ypos, hvy]; exact hwy.1
  · rw [body_writes_head_ypos, hvy]; exact hwy.2
  · rw [body_writes_tail_xpos]; exact hx1
  · rw [body_writes_tail_xpos]; exact hx2
  · rw [body_writes_tail_ypos]; exact hy1
  · rw [body_writes_tail_ypos]; exact hy2

/-- C5: for every in-bounds coordinate, the two-byte window read and
written by `snake_cell_at` and `put_cell_at_` is claimed to lie inside
the 162-byte `cells` array.  The code violates this at (22, 17) and
(23, 17): there the window's second byte index `SHIFT/8 + 1` equals
162 = `CELLS_BYTES`, one past the array (valid indices are
`< CELLS_BYTES`).  The addressed 3-bit field itself always stays
inside the array (`SHIFT + 3 ≤ 8 * CELLS_BYTES`, first window byte
`SHIFT/8 < CELLS_BYTES`), and the full window is in bounds exactly for
linear indices `x + y*24 ≤ 429`. -/
theorem claim_C5 :
    (SHIFT 22 17 / 8 + 1 = CELLS_BYTES ∧ ¬ SHIFT 22 17 / 8 + 1 < CELLS_BYTES) ∧
    (SHIFT 23 17 / 8 + 1 = CELLS_BYTES ∧ ¬ SHIFT 23 17 / 8 + 1 < CELLS_BYTES) ∧
    (∀ x, x < SNAKE_GAME_WIDTH → ∀ y, y < SNAKE_GAME_HEIGHT →
      SHIFT x y / 8 < CELLS_BYTES ∧ SHIFT x y + 3 ≤ 8 * CELLS_BYTES ∧
      (SHIFT x y / 8 + 1 < CELLS_BYTES ↔ x + y * SNAKE_GAME_WIDTH ≤ 429)) := by
  decide

/-- C6: for every in-bounds coordinate and cell code 0..5, reading the
cell just written returns exactly that code, and every other in-bounds
cell reads unchanged (the write touches only the single addressed
3-bit cell). -/
theorem claim_C6 (ctx : SnakeContext) (x y c : Nat)
    (hx : x < SNAKE_GAME_WIDTH) (hy : y < SNAKE_GAME_HEIGHT) (hc : c ≤ 5) :
    snake_cell_at (put_cell_at_ ctx x y c) x y = c ∧
    ∀ x2 y2, x2 < SNAKE_GAME_WIDTH → y2 < SNAKE_GAME_HEIGHT →
      (x2, y2) ≠ (x, y) →
      snake_cell_at (put_cell_at_ ctx x y c) x2 y2 = snake_cell_at ctx x2 y2 := by
  constructor
  · exact snake_cell_at_put_self ctx x y c (by omega)
  · intro x2 y2 hx2 hy2 hne
    apply snake_cell_at_put_other
    have hcoord : x2 ≠ x ∨ y2 ≠ y := by
      by_cases h1 : x2 = x
      · exact Or.inr fun h2 => hne (Prod.ext_iff.mpr ⟨h1, h2⟩)
      · exact Or.inl h1
    rcases hcoord with hc2 | hc2 <;>
      simp only [SNAKE_GAME_WIDTH] at hx hy hx2 hy2 ⊢ <;> omega

theorem claim_C6_witness :
    snake_cell_at (put_cell_at_ ctx_empty 3 4 5) 3 4 = 5 ∧
    snake_cell_at (put_cell_at_ ctx_empty 3 4 5) 2 4 = snake_cell_at ctx_empty 2 4 := by
  obtain ⟨h1, h2⟩ := claim_C6 ctx_empty 3 4 5 (by decide) (by decide) (by decide)
  exact ⟨h1, h2 2 4 (by decide) (by decide) (by decide)⟩

/-- C7: a single-cell move from an in-bounds coordinate, followed by
the wrap, equals the unwrapped result reduced modulo the grid
dimension; and initialization, redirection and stepping all keep head
and tail coordinates inside `[0, 24) × [0, 18)`. -/
theorem claim_C7 :
    (∀ v mx d : Int, 0 ≤ v → v < mx → d = 1 ∨ d = -1 →
      wrap_around_ (v + d) mx = (v + d) % mx) ∧
    (∀ rs ctx rs2, snake_initialize rs = some (ctx, rs2) → coords_in_bounds ctx) ∧
    (∀ ctx dir, coords_in_bounds ctx → coords_in_bounds (snake_redir ctx dir)) ∧
    (∀ ctx rs ctx2 rs2, coords_in_bounds ctx →
      snake_step ctx rs = some (ctx2, rs2) → coords_in_bounds ctx2) := by
  have hinit : ∀ rs ctx rs2, snake_initialize rs = some (ctx, rs2) →
      coords_in_bounds ctx := by
    intro rs ctx rs2 h
    obtain ⟨h1, h2, h3, h4, _⟩ := initialize_spec h
    refine ⟨?_, ?_, ?_, ?_, ?_, ?_, ?_, ?_⟩ <;>
      simp [h1, h2, h3, h4, SNAKE_GAME_WIDTH, SNAKE_GAME_HEIGHT] <;> norm_num
  refine ⟨?_, hinit, ?_, ?_⟩
  · intro v mx d h0 hm hd
    have hmx : (1 : Int) ≤ mx := by omega
    have hw : v + d = -1 ∨ (0 ≤ v + d ∧ v + d < mx) ∨ v + d = mx := by omega
    unfold wrap_around_
    rcases hw with hw | hw | hw
    · rw [if_pos (by omega), hw]
      have h1 : (-1 : Int) % mx = (-1 + mx * 1) % mx :=
        (Int.add_mul_emod_self_left (-1) mx 1).symm
      rw [h1, Int.emod_eq_of_lt (by omega) (by omega)]
      omega
    · rw [if_neg (by omega), if_neg (by omega), Int.emod_eq_of_lt hw.1 hw.2]
    · rw [if_neg (by omega), if_pos (by omega), hw, Int.emod_self]
  · intro ctx dir h
    simp only [snake_redir]
    split
    · exact h
    · exact h
  · intro ctx rs ctx2 rs2 h hstep
    by_cases hcol : new_head_cell ctx ≠ SNAKE_CELL_NOTHING ∧
        new_head_cell ctx ≠ SNAKE_CELL_FOOD
    · rw [snake_step_collision ctx rs hcol] at hstep
      exact hinit rs ctx2 rs2 hstep
    · have hval : new_head_cell ctx = SNAKE_CELL_NOTHING ∨
          new_head_cell ctx = SNAKE_CELL_FOOD := by
        by_cases h0 : new_head_cell ctx = SNAKE_CELL_NOTHING
        · exact Or.inl h0
        · exact Or.inr (by_contra fun h5 => hcol ⟨h0, h5⟩)
      rcases hval with h0 | h5
      · rw [snake_step_empty ctx rs h0] at hstep
        cases hstep
        exact body_writes_coords ctx h
      · by_cases hfull : ctx.occupied_cells = SNAKE_GAME_WIDTH * SNAKE_GAME_HEIGHT
        · rw [snake_step_win ctx rs h5 hfull] at hstep
          exact hinit rs ctx2 rs2 hstep
        · rcases hnf : new_food_pos_ (body_writes ctx) rs with _ | p
          · rw [snake_step_food_none ctx rs h5 hfull hnf] at hstep
            exact absurd hstep (by simp)
          · rcases p with ⟨c5, rs3⟩
            rw [snake_step_food ctx rs h5 hfull hnf] at hstep
            obtain ⟨f1, f2, f3, f4, _⟩ := new_food_fields hnf
            simp only at f1 f2 f3 f4
            obtain ⟨b1, b2, b3, b4, b5, b6, b7, b8⟩ := body_writes_coords ctx h
            cases hstep
            unfold coords_in_bounds
            refine ⟨?_, ?_, ?_, ?_, ?_, ?_, ?_, ?_⟩
            · show (0:Int) ≤ c5.head_xpos
              rw [f1]; exact b1
            · show c5.head_xpos < _
              rw [f1]; exact b2
            · show (0:Int) ≤ c5.head_ypos
              rw [f2]; exact b3
            · show c5.head_ypos < _
              rw [f2]; exact b4
            · show (0:Int) ≤ c5.tail_xpos
              rw [f3]; exact b5
            · show c5.tail_xpos < _
              rw [f3]; exact b6
            · show (0:Int) ≤ c5.tail_ypos
              rw [f4]; exact b7
            · show c5.tail_ypos < _
              rw [f4]; exact b8

/-- Closed form of the catch-up loop: it runs `(now - t) / 125` steps
and advances the last-step time by that many multiples of 125. -/
theorem catch_up_eq {σ : Type} (f : σ → σ) (now : Nat) :
    ∀ k t s, now - t ≤ k →
      catch_up f now t s =
        ((now - t) / 125, t + 125 * ((now - t) / 125),
          f^[(now - t) / 125] s) := by
  intro k
  induction k with
  | zero =>
    intro t s hk
    rw [catch_up, dif_neg (by simp only [STEP_RATE_IN_MILLISECONDS]; omega)]
    have h0 : now - t = 0 := by omega
    simp [h0]
  | succ k ih =>
    intro t s hk
    by_cases hc : STEP_RATE_IN_MILLISECONDS ≤ now - t
    · rw [catch_up, dif_pos hc]
      simp only [STEP_RATE_IN_MILLISECONDS] at hc ⊢
      rw [ih (t + 125) (f s) (by omega)]
      simp only [Prod.mk.injEq]
      have hdiv : (now - t) / 125 = (now - (t + 125)) / 125 + 1 := by omega
      refine ⟨by omega, by omega, ?_⟩
      rw [hdiv, Function.iterate_succ_apply]
    · rw [catch_up, dif_neg hc]
      simp only [STEP_RATE_IN_MILLISECONDS] at hc
      have hz : (now - t) / 125 = 0 := Nat.div_eq_of_lt (by omega)
      simp [hz]

/-- C9: one frame of the driver with polled time `now` and stored
last-step time `t ≤ now` performs exactly `(now - t) / 125` steps,
advances the stored time by exactly that many multiples of 125 ms, and
leaves the remainder `(now - t) % 125` to carry into the next frame;
the resulting state is the step function iterated that many times. -/
theorem claim_C9 {σ : Type} (f : σ → σ) (now t : Nat) (s : σ) (h : t ≤ now) :
    (catch_up f now t s).1 = (now - t) / STEP_RATE_IN_MILLISECONDS ∧
    (catch_up f now t s).2.1 =
      t + STEP_RATE_IN_MILLISECONDS * ((now - t) / STEP_RATE_IN_MILLISECONDS) ∧
    now - (catch_up f now t s).2.1 = (now - t) % STEP_RATE_IN_MILLISECONDS ∧
    (catch_up f now t s).2.2 =
      f^[(now - t) / STEP_RATE_IN_MILLISECONDS] s := by
  have he := catch_up_eq f now (now - t) t s (le_refl _)
  rw [he]
  refine ⟨rfl, rfl, ?_, rfl⟩
  simp only [STEP_RATE_IN_MILLISECONDS]
  omega

theorem claim_C9_witness :
    0 ≤ 280 ∧
    (catch_up (fun n : Nat => n + 1) 280 0 0).1 = (280 - 0) / STEP_RATE_IN_MILLISECONDS ∧
    (catch_up (fun n : Nat => n + 1) 280 0 0).2.1 =
      0 + STEP_RATE_IN_MILLISECONDS * ((280 - 0) / STEP_RATE_IN_MILLISECONDS) ∧
    280 - (catch_up (fun n : Nat => n + 1) 280 0 0).2.1 =
      (280 - 0) % STEP_RATE_IN_MILLISECONDS ∧
    (catch_up (fun n : Nat => n + 1) 280 0 0).2.2 =
      (fun n : Nat => n + 1)^[(280 - 0) / STEP_RATE_IN_MILLISECONDS] 0 :=
  ⟨by decide, claim_C9 (fun n : Nat => n + 1) 280 0 0 (by decide)⟩

/-- `snake_redir` is the acceptance test applied to the head cell:
it reads nothing else of the state. -/
theorem snake_redir_head_only (ctx : SnakeContext) (dir : Nat) :
    snake_redir ctx dir =
      if redir_allowed dir
          (snake_cell_at ctx ctx.head_xpos.toNat ctx.head_ypos.toNat)
      then { ctx with next_dir := dir } else ctx := by
  by_cases h : redir_allowed dir
      (snake_cell_at ctx ctx.head_xpos.toNat ctx.head_ypos.toNat)
  · rw [if_pos h]
    unfold redir_allowed at h
    simp only [snake_redir]
    rw [if_pos h]
  · rw [if_neg h]
    unfold redir_allowed at h
    simp only [snake_redir]
    rw [if_neg h]

/-- For the four real directions, the rejected case is exactly the one
where the head cell encodes the opposite facing. -/
theorem snake_redir_eq (ctx : SnakeContext) (dir : Nat) (h : dir < 4) :
    snake_redir ctx dir =
      if snake_cell_at ctx ctx.head_xpos.toNat ctx.head_ypos.toNat =
          opposite_body_cell dir
      then ctx else { ctx with next_dir := dir } := by
  rw [snake_redir_head_only]
  set ct := snake_cell_at ctx ctx.head_xpos.toNat ctx.head_ypos.toNat
  interval_cases dir
  · by_cases hc : ct = SNAKE_CELL_SLEFT <;>
      simp [redir_allowed, opposite_body_cell, SNAKE_DIR_RIGHT, SNAKE_DIR_UP,
        SNAKE_DIR_LEFT, SNAKE_DIR_DOWN, SNAKE_CELL_SRIGHT, SNAKE_CELL_SUP,
        SNAKE_CELL_SLEFT, SNAKE_CELL_SDOWN, hc]
  · by_cases hc : ct = SNAKE_CELL_SDOWN <;>
      simp [redir_allowed, opposite_body_cell, SNAKE_DIR_RIGHT, SNAKE_DIR_UP,
        SNAKE_DIR_LEFT, SNAKE_DIR_DOWN, SNAKE_CELL_SRIGHT, SNAKE_CELL_SUP,
        SNAKE_CELL_SLEFT, SNAKE_CELL_SDOWN, hc]
  · by_cases hc : ct = SNAKE_CELL_SRIGHT <;>
      simp [redir_allowed, opposite_body_cell, SNAKE_DIR_RIGHT, SNAKE_DIR_UP,
        SNAKE_DIR_LEFT, SNAKE_DIR_DOWN, SNAKE_CELL_SRIGHT, SNAKE_CELL_SUP,
        SNAKE_CELL_SLEFT, SNAKE_CELL_SDOWN, hc]
  · by_cases hc : ct = SNAKE_CELL_SUP <;>
      simp [redir_allowed, opposite_body_cell, SNAKE_DIR_RIGHT, SNAKE_DIR_UP,
        SNAKE_DIR_LEFT, SNAKE_DIR_DOWN, SNAKE_CELL_SRIGHT, SNAKE_CELL_SUP,
        SNAKE_CELL_SLEFT, SNAKE_CELL_SDOWN, hc]

/-- C4: redirect leaves the pending direction unchanged exactly when
the requested direction is the 180-degree opposite of the facing
encoded in the body cell at the head, and otherwise overwrites it
(last accepted call wins); after initialization (facing Right), any
number of redirect(Left) calls leave the whole state unchanged with
pending direction Right, and the following step moves the head to
(13, 9). -/
theorem claim_C4 :
    (∀ ctx dir, dir < 4 →
      snake_redir ctx dir =
        if snake_cell_at ctx ctx.head_xpos.toNat ctx.head_ypos.toNat =
            opposite_body_cell dir
        then ctx else { ctx with next_dir := dir }) ∧
    ∀ rs ctx rs2, snake_initialize rs = some (ctx, rs2) →
      (∀ n, (fun c => snake_redir c SNAKE_DIR_LEFT)^[n] ctx = ctx) ∧
      ctx.next_dir = SNAKE_DIR_RIGHT ∧
      ∀ ctx2 rs3, snake_step ctx rs2 = some (ctx2, rs3) →
        ctx2.head_xpos = 13 ∧ ctx2.head_ypos = 9 := by
  refine ⟨fun ctx dir h => snake_redir_eq ctx dir h, ?_⟩
  intro rs ctx rs2 hinit
  obtain ⟨hhx, hhy, htx, hty, hdir, hinh, hocc, hok, hcard⟩ := initialize_spec hinit
  have hheadcell : snake_cell_at ctx ctx.head_xpos.toNat ctx.head_ypos.toNat
      = SNAKE_CELL_SRIGHT := by
    rw [hhx, hhy]
    exact hok.1
  have hfix : snake_redir ctx SNAKE_DIR_LEFT = ctx := by
    rw [snake_redir_eq ctx SNAKE_DIR_LEFT (by norm_num [SNAKE_DIR_LEFT])]
    rw [if_pos (by rw [hheadcell]; decide)]
  refine ⟨fun n => Function.iterate_fixed hfix n, hdir, ?_⟩
  intro ctx2 rs3 hstep
  have htp : tail_phase ctx = { ctx with inhibit_tail_step := ctx.inhibit_tail_step - 1 } :=
    tail_phase_of_ne ctx (by rw [hinh]; norm_num)
  have hm := head_move_right (tail_phase ctx) (by rw [tail_phase_next_dir, hdir])
  have hmx : (head_move (tail_phase ctx)).head_xpos = 13 := by
    rw [hm.1, tail_phase_head_xpos, hhx]
    decide
  have hmy : (head_move (tail_phase ctx)).head_ypos = 9 := by
    rw [hm.2, tail_phase_head_ypos, hhy]
    decide
  have hcells2 : (head_move (tail_phase ctx)).cells = ctx.cells := by
    rw [head_move_cells, htp]
  have hnhc : new_head_cell ctx = snake_cell_at ctx 13 9 := by
    simp only [new_head_cell]
    rw [hmx, hmy]
    exact snake_cell_at_congr hcells2 _ _
  have hclass := hok.2 13 9 (by norm_num [SNAKE_GAME_WIDTH])
    (by norm_num [SNAKE_GAME_HEIGHT])
  have hheads : (body_writes ctx).head_xpos = 13 ∧ (body_writes ctx).head_ypos = 9 := by
    rw [body_writes_head_xpos, body_writes_head_ypos]
    exact ⟨hmx, hmy⟩
  rcases hclass with h0 | h5 | ⟨_, hbad, _⟩
  · rw [snake_step_empty ctx rs2 (by rw [hnhc]; exact h0)] at hstep
    cases hstep
    exact hheads
  · have hnot : ctx.occupied_cells ≠ SNAKE_GAME_WIDTH * SNAKE_GAME_HEIGHT := by
      rw [hocc]
      norm_num [SNAKE_GAME_WIDTH, SNAKE_GAME_HEIGHT]
    rcases hnf : new_food_pos_ (body_writes ctx) rs2 with _ | ⟨c5, rs4⟩
    · rw [snake_step_food_none ctx rs2 (by rw [hnhc]; exact h5) hnot hnf] at hstep
      exact absurd hstep (by simp)
    · rw [snake_step_food ctx rs2 (by rw [hnhc]; exact h5) hnot hnf] at hstep
      obtain ⟨f1, f2, _⟩ := new_food_fields hnf
      simp only at f1 f2
      cases hstep
      constructor
      · show c5.head_xpos = 13
        rw [f1, hheads.1]
      · show c5.head_ypos = 9
        rw [f2, hheads.2]
  · exact absurd hbad (by norm_num)

theorem claim_C4_witness :
    snake_redir init0 SNAKE_DIR_LEFT = init0 ∧
    (fun c => snake_redir c SNAKE_DIR_LEFT)^[3] init0 = init0 ∧
    init0.next_dir = SNAKE_DIR_RIGHT ∧
    (body_writes init0).head_xpos = 13 ∧ (body_writes init0).head_ypos = 9 := by
  have h := claim_C4.2 rs0 init0 [] (by rfl)
  refine ⟨?_, h.1 3, h.2.1, h.2.2 (body_writes init0) [] (by rfl)⟩
  have h1 := h.1 1
  simpa using h1

/-- C10: redirect compares the requested direction only with the body
cell stored at the head, never with the currently pending direction;
in particular, right after initialization (head cell BodyRight) the
sequence redirect(Up) then redirect(Down) first sets the pending
direction to Up and then to Down, the exact opposite of the direction
set by the first call. -/
theorem claim_C10 :
    (∀ ctx dir, snake_redir ctx dir =
      if redir_allowed dir
          (snake_cell_at ctx ctx.head_xpos.toNat ctx.head_ypos.toNat)
      then { ctx with next_dir := dir } else ctx) ∧
    ∀ rs ctx rs2, snake_initialize rs = some (ctx, rs2) →
      (snake_redir ctx SNAKE_DIR_UP).next_dir = SNAKE_DIR_UP ∧
      (snake_redir (snake_redir ctx SNAKE_DIR_UP) SNAKE_DIR_DOWN).next_dir
        = SNAKE_DIR_DOWN := by
  refine ⟨fun ctx dir => snake_redir_head_only ctx dir, ?_⟩
  intro rs ctx rs2 hinit
  obtain ⟨hhx, hhy, _, _, _, _, _, hok, _⟩ := initialize_spec hinit
  have hheadcell : snake_cell_at ctx ctx.head_xpos.toNat ctx.head_ypos.toNat
      = SNAKE_CELL_SRIGHT := by
    rw [hhx, hhy]
    exact hok.1
  have hup : snake_redir ctx SNAKE_DIR_UP = { ctx with next_dir := SNAKE_DIR_UP } := by
    rw [snake_redir_eq ctx SNAKE_DIR_UP (by norm_num [SNAKE_DIR_UP])]
    rw [if_neg (by rw [hheadcell]; decide)]
  have hheadcell2 : snake_cell_at { ctx with next_dir := SNAKE_DIR_UP }
      ({ ctx with next_dir := SNAKE_DIR_UP } : SnakeContext).head_xpos.toNat
      ({ ctx with next_dir := SNAKE_DIR_UP } : SnakeContext).head_ypos.toNat
      = SNAKE_CELL_SRIGHT := hheadcell
  constructor
  · rw [hup]
  · rw [hup, snake_redir_eq _ SNAKE_DIR_DOWN (by norm_num [SNAKE_DIR_DOWN])]
    rw [if_neg (by rw [hheadcell2]; decide)]

theorem claim_C10_witness :
    (snake_redir init0 SNAKE_DIR_UP).next_dir = SNAKE_DIR_UP ∧
    (snake_redir (snake_redir init0 SNAKE_DIR_UP) SNAKE_DIR_DOWN).next_dir
      = SNAKE_DIR_DOWN :=
  claim_C10.2 rs0 init0 [] (by rfl)

/-- C1: after a successful initialization on the 24x18 grid: head =
tail = (12, 9); the cell there is BodyRight; pending direction Right;
growth-inhibit counter 4; occupied-cell-count 7; exactly 4 cells hold
food; and every in-bounds cell other than (12, 9) and the food cells
is empty. -/
theorem claim_C1 (rs : List (Nat × Nat)) (ctx : SnakeContext)
    (rs2 : List (Nat × Nat)) (h : snake_initialize rs = some (ctx, rs2)) :
    ctx.head_xpos = 12 ∧ ctx.head_ypos = 9 ∧
    ctx.tail_xpos = 12 ∧ ctx.tail_ypos = 9 ∧
    snake_cell_at ctx 12 9 = SNAKE_CELL_SRIGHT ∧
    ctx.next_dir = SNAKE_DIR_RIGHT ∧
    ctx.inhibit_tail_step = 4 ∧
    ctx.occupied_cells = 7 ∧
    (foodCells ctx).card = 4 ∧
    ∀ x y, x < SNAKE_GAME_WIDTH → y < SNAKE_GAME_HEIGHT →
      ¬(x = 12 ∧ y = 9) → snake_cell_at ctx x y ≠ SNAKE_CELL_FOOD →
      snake_cell_at ctx x y = SNAKE_CELL_NOTHING := by
  obtain ⟨hhx, hhy, htx, hty, hdir, hinh, hocc, hok, hcard⟩ := initialize_spec h
  refine ⟨hhx, hhy, htx, hty, hok.1, hdir, hinh, hocc, hcard, ?_⟩
  intro x y hx hy hne hnf
  rcases hok.2 x y hx hy with h0 | h5 | ⟨_, hx12, hy9⟩
  · exact h0
  · exact absurd h5 hnf
  · exact absurd ⟨hx12, hy9⟩ hne

theorem claim_C1_witness :
    init0.head_xpos = 12 ∧ init0.tail_xpos = 12 ∧
    snake_cell_at init0 12 9 = SNAKE_CELL_SRIGHT ∧
    init0.next_dir = SNAKE_DIR_RIGHT ∧
    init0.inhibit_tail_step = 4 ∧ init0.occupied_cells = 7 ∧
    (foodCells init0).card = 4 ∧
    snake_cell_at init0 0 1 = SNAKE_CELL_NOTHING := by
  obtain ⟨a1, a2, a3, a4, a5, a6, a7, a8, a9, a10⟩ :=
    claim_C1 rs0 init0 [] (by rfl)
  exact ⟨a1, a3, a5, a6, a7, a8, a9,
    a10 0 1 (by decide) (by decide) (by decide) (by decide)⟩

/-- C2: if the step finds a body-direction cell at the new head
position (self-collision), or finds food there while the
occupied-cell-count already equals width*height (win), the step is the
full reinitialization: with the same random stream its result is
literally the fresh initialization's result (identical cell-for-cell
and field-for-field, the 4 fresh food cells coming from the stream),
and the step has no further effects. -/
theorem claim_C2 (ctx : SnakeContext) (rs : List (Nat × Nat))
    (h : (new_head_cell ctx = SNAKE_CELL_SRIGHT ∨
          new_head_cell ctx = SNAKE_CELL_SUP ∨
          new_head_cell ctx = SNAKE_CELL_SLEFT ∨
          new_head_cell ctx = SNAKE_CELL_SDOWN) ∨
         (new_head_cell ctx = SNAKE_CELL_FOOD ∧
          ctx.occupied_cells = SNAKE_GAME_WIDTH * SNAKE_GAME_HEIGHT)) :
    snake_step ctx rs = snake_initialize rs := by
  rcases h with hb | ⟨h5, hfull⟩
  · apply snake_step_collision
    rcases hb with hc | hc | hc | hc <;> rw [hc] <;> exact ⟨by decide, by decide⟩
  · exact snake_step_win ctx rs h5 hfull

theorem claim_C2_witness :
    new_head_cell cctx = SNAKE_CELL_SRIGHT ∧
    snake_step cctx rs0 = snake_initialize rs0 :=
  ⟨by decide, claim_C2 cctx rs0 (Or.inl (Or.inl (by decide)))⟩

/-- C3: a step that finds food at the new head position while the
board is not full and the placement succeeds increments the
occupied-cell-count by exactly 1, increments the growth-inhibit
counter by exactly 1 over its post-tail-phase value (so the tail is
held for exactly one extra future step), and turns exactly one empty
cell into the new food cell, all other cells being exactly those of
the body-writes state. -/
theorem claim_C3 (ctx : SnakeContext) (rs : List (Nat × Nat))
    (ctx2 : SnakeContext) (rs2 : List (Nat × Nat))
    (h5 : new_head_cell ctx = SNAKE_CELL_FOOD)
    (hnotfull : ctx.occupied_cells ≠ SNAKE_GAME_WIDTH * SNAKE_GAME_HEIGHT)
    (hstep : snake_step ctx rs = some (ctx2, rs2)) :
    ctx2.occupied_cells = ctx.occupied_cells + 1 ∧
    ctx2.inhibit_tail_step = (tail_phase ctx).inhibit_tail_step + 1 ∧
    ∃ fx fy, fx < SNAKE_GAME_WIDTH ∧ fy < SNAKE_GAME_HEIGHT ∧
      snake_cell_at (body_writes ctx) fx fy = SNAKE_CELL_NOTHING ∧
      snake_cell_at ctx2 fx fy = SNAKE_CELL_FOOD ∧
      ∀ x y, x < SNAKE_GAME_WIDTH → y < SNAKE_GAME_HEIGHT →
        ¬(x = fx ∧ y = fy) →
        snake_cell_at ctx2 x y = snake_cell_at (body_writes ctx) x y := by
  rcases hnf : new_food_pos_ (body_writes ctx) rs with _ | ⟨c5, rs4⟩
  · rw [snake_step_food_none ctx rs h5 hnotfull hnf] at hstep
    exact absurd hstep (by simp)
  · rw [snake_step_food ctx rs h5 hnotfull hnf] at hstep
    obtain ⟨fx, fy, hfx, hfy, hempty, hput⟩ := new_food_spec _ rs _ hnf
    obtain ⟨_, _, _, _, _, f6, f7⟩ := new_food_fields hnf
    simp only at hput f6 f7
    cases hstep
    have hcongr : ∀ x y : Nat,
        snake_cell_at ({ c5 with
          inhibit_tail_step := c5.inhibit_tail_step + 1,
          occupied_cells := c5.occupied_cells + 1 } : SnakeContext) x y
        = snake_cell_at c5 x y := fun x y => snake_cell_at_congr rfl x y
    refine ⟨?_, ?_, fx, fy, hfx, hfy, hempty, ?_, ?_⟩
    · show c5.occupied_cells + 1 = ctx.occupied_cells + 1
      rw [f7, body_writes_occupied]
    · show c5.inhibit_tail_step + 1 = (tail_phase ctx).inhibit_tail_step + 1
      rw [f6, body_writes_inhibit]
    · rw [hcongr, hput]
      exact snake_cell_at_put_self _ fx fy _ (by norm_num [SNAKE_CELL_FOOD])
    · intro x y hx hy hne
      rw [hcongr, hput]
      apply snake_cell_at_put_other
      have hcoord : x ≠ fx ∨ y ≠ fy := by
        by_cases h1 : x = fx
        · exact Or.inr fun h2 => hne ⟨h1, h2⟩
        · exact Or.inl h1
      rcases hcoord with hc | hc <;>
        simp only [SNAKE_GAME_WIDTH] at hx hy hfx hfy ⊢ <;> omega

theorem claim_C3_witness :
    new_head_cell fctx = SNAKE_CELL_FOOD ∧
    fctx.occupied_cells = 7 ∧
    fstep.1.occupied_cells = fctx.occupied_cells + 1 ∧
    fstep.1.inhibit_tail_step = (tail_phase fctx).inhibit_tail_step + 1 := by
  have h := claim_C3 fctx rs0 fstep.1 fstep.2 (by decide) (by decide) (by rfl)
  exact ⟨by decide, by decide, h.1, h.2.1⟩

/-- C8 counterexample: in the concrete state `cctx` the counter is 5,
so it never reaches 0 during the step, yet the step (a self-collision
reset) moves the tail from (0, 0) to the grid center (12, 9) — the
claim's "the tail stays fixed in steps where the counter does not
reach 0" is false as stated. -/
theorem claim_C8_counterexample :
    cctx.inhibit_tail_step = 5 ∧
    cctx.tail_xpos = 0 ∧ cctx.tail_ypos = 0 ∧
    snake_step cctx rs0 = some (init0, []) ∧
    init0.tail_xpos = 12 ∧ init0.tail_ypos = 9 :=
  ⟨by decide, by decide, by decide, by rfl, by decide, by decide⟩

/-- C8 (amended): the growth-inhibit counter is 4 (hence ≥ 1) after
initialization, is untouched by redirect, and stays ≥ 1 across every
step; within a step the tail phase decrements the counter exactly
once, and exactly when it thereby reaches 0 it is restored to 1 and
the tail-advance block runs, otherwise only the decrement happens; in
steps that do not reset (no collision and no win) the tail stays fixed
whenever the counter did not reach 0.  (Resetting steps re-center the
tail regardless of the counter.) -/
theorem claim_C8 :
    (∀ rs ctx rs2, snake_initialize rs = some (ctx, rs2) →
      ctx.inhibit_tail_step = 4) ∧
    (∀ ctx dir, (snake_redir ctx dir).inhibit_tail_step = ctx.inhibit_tail_step) ∧
    (∀ ctx rs ctx2 rs2, 1 ≤ ctx.inhibit_tail_step →
      snake_step ctx rs = some (ctx2, rs2) → 1 ≤ ctx2.inhibit_tail_step) ∧
    (∀ ctx : SnakeContext, ctx.inhibit_tail_step = 1 →
      tail_phase ctx = tail_advance { ctx with inhibit_tail_step := 0 } ∧
      (tail_phase ctx).inhibit_tail_step = 1) ∧
    (∀ ctx : SnakeContext, ctx.inhibit_tail_step ≠ 1 →
      tail_phase ctx = { ctx with inhibit_tail_step := ctx.inhibit_tail_step - 1 }) ∧
    (∀ ctx rs ctx2 rs2, ctx.inhibit_tail_step ≠ 1 →
      (new_head_cell ctx = SNAKE_CELL_NOTHING ∨
        (new_head_cell ctx = SNAKE_CELL_FOOD ∧
         ctx.occupied_cells ≠ SNAKE_GAME_WIDTH * SNAKE_GAME_HEIGHT)) →
      snake_step ctx rs = some (ctx2, rs2) →
      ctx2.tail_xpos = ctx.tail_xpos ∧ ctx2.tail_ypos = ctx.tail_ypos) := by
  have hinit : ∀ rs ctx rs2, snake_initialize rs = some (ctx, rs2) →
      ctx.inhibit_tail_step = 4 := by
    intro rs ctx rs2 h
    exact (initialize_spec h).2.2.2.2.2.1
  have htails : ∀ ctx : SnakeContext, ctx.inhibit_tail_step ≠ 1 →
      (tail_phase ctx).tail_xpos = ctx.tail_xpos ∧
      (tail_phase ctx).tail_ypos = ctx.tail_ypos := by
    intro ctx h
    rw [tail_phase_of_ne ctx h]
    exact ⟨rfl, rfl⟩
  refine ⟨hinit, ?_, ?_, ?_, fun ctx h => tail_phase_of_ne ctx h, ?_⟩
  · intro ctx dir
    simp only [snake_redir]
    split
    · rfl
    · rfl
  · intro ctx rs ctx2 rs2 h1 hstep
    have hbw : 1 ≤ (body_writes ctx).inhibit_tail_step := by
      rw [body_writes_inhibit, tail_phase_inhibit]
      split
      · norm_num
      · omega
    by_cases hcol : new_head_cell ctx ≠ SNAKE_CELL_NOTHING ∧
        new_head_cell ctx ≠ SNAKE_CELL_FOOD
    · rw [snake_step_collision ctx rs hcol] at hstep
      rw [hinit rs ctx2 rs2 hstep]
      norm_num
    · have hval : new_head_cell ctx = SNAKE_CELL_NOTHING ∨
          new_head_cell ctx = SNAKE_CELL_FOOD := by
        by_cases h0 : new_head_cell ctx = SNAKE_CELL_NOTHING
        · exact Or.inl h0
        · exact Or.inr (by_contra fun h5 => hcol ⟨h0, h5⟩)
      rcases hval with h0 | h5
      · rw [snake_step_empty ctx rs h0] at hstep
        cases hstep
        exact hbw
      · by_cases hfull : ctx.occupied_cells = SNAKE_GAME_WIDTH * SNAKE_GAME_HEIGHT
        · rw [snake_step_win ctx rs h5 hfull] at hstep
          rw [hinit rs ctx2 rs2 hstep]
          norm_num
        · rcases hnf : new_food_pos_ (body_writes ctx) rs with _ | ⟨c5, rs4⟩
          · rw [snake_step_food_none ctx rs h5 hfull hnf] at hstep
            exact absurd hstep (by simp)
          · rw [snake_step_food ctx rs h5 hfull hnf] at hstep
            obtain ⟨_, _, _, _, _, f6, _⟩ := new_food_fields hnf
            simp only at f6
            cases hstep
            show 1 ≤ c5.inhibit_tail_step + 1
            rw [f6]
            omega
  · intro ctx h1
    refine ⟨tail_phase_of_one ctx h1, ?_⟩
    rw [tail_phase_of_one ctx h1, tail_advance_inhibit]
    simp
  · intro ctx rs ctx2 rs2 hne1 hpath hstep
    have ht := htails ctx hne1
    rcases hpath with h0 | ⟨h5, hnotfull⟩
    · rw [snake_step_empty ctx rs h0] at hstep
      cases hstep
      rw [body_writes_tail_xpos, body_writes_tail_ypos]
      exact ht
    · rcases hnf : new_food_pos_ (body_writes ctx) rs with _ | ⟨c5, rs4⟩
      · rw [snake_step_food_none ctx rs h5 hnotfull hnf] at hstep
        exact absurd hstep (by simp)
      · rw [snake_step_food ctx rs h5 hnotfull hnf] at hstep
        obtain ⟨_, _, f3, f4, _⟩ := new_food_fields hnf
        simp only at f3 f4
        cases hstep
        constructor
        · show c5.tail_xpos = ctx.tail_xpos
          rw [f3, body_writes_tail_xpos, ht.1]
        · show c5.tail_ypos = ctx.tail_ypos
          rw [f4, body_writes_tail_ypos, ht.2]

theorem claim_C8_witness :
    init0.inhibit_tail_step = 4 ∧
    (snake_redir init0 SNAKE_DIR_UP).inhibit_tail_step = init0.inhibit_tail_step ∧
    1 ≤ fstep.1.inhibit_tail_step ∧
    (tail_phase ctx_empty = tail_advance { ctx_empty with inhibit_tail_step := 0 } ∧
      (tail_phase ctx_empty).inhibit_tail_step = 1) ∧
    tail_phase init0 = { init0 with inhibit_tail_step := init0.inhibit_tail_step - 1 } ∧
    (fstep.1.tail_xpos = fctx.tail_xpos ∧ fstep.1.tail_ypos = fctx.tail_ypos) := by
  obtain ⟨p1, p2, p3, p4, p5, p6⟩ := claim_C8
  exact ⟨p1 rs0 init0 [] (by rfl), p2 init0 SNAKE_DIR_UP,
    p3 fctx rs0 fstep.1 fstep.2 (by decide) (by rfl),
    p4 ctx_empty (by decide), p5 init0 (by decide),
    p6 fctx rs0 fstep.1 fstep.2 (by decide)
      (Or.inr ⟨by decide, by decide⟩) (by rfl)⟩


theorem claim_C7_witness :
    wrap_around_ (23 + 1) 24 = (23 + 1) % 24 ∧
    coords_in_bounds init0 ∧
    coords_in_bounds (snake_redir init0 SNAKE_DIR_UP) ∧
    coords_in_bounds fstep.1 := by
  obtain ⟨w, i, r, s⟩ := claim_C7
  exact ⟨w 23 24 1 (by decide) (by decide) (by decide),
    i rs0 init0 [] (by rfl),
    r init0 SNAKE_DIR_UP (by decide),
    s fctx rs0 fstep.1 fstep.2 (by decide) (by rfl)⟩

end SnakeGame
